import Mathlib

/-!
Verification development for the RiskAnalysis multi-agent orchestration core.

Shallow embedding of:
  * the shared state schema (src/state/schema.py),
  * the retry wrapper `retry_with_backoff` (src/utils.py),
  * the supervisor routing policy `supervisor_node` (src/agents/supervisor.py),
  * the ReAct loop, tool dispatch and agent nodes (src/agents/nodes.py),
  * the graph step discipline (src/graph.py, src/main.py).

External collaborators (the Gemini reasoning service, the concrete tool
implementations, `json.loads`, `random.uniform`) are abstracted as
parameters; everything the repository's own code computes is embedded
faithfully.
-/

namespace RiskAnalysis

/-! ## String primitives

Structurally recursive character-list implementations of the Python
string operations used by the embedded code (`in`, `.lower()`,
`.strip()`, `.index`), so that every concrete scenario evaluates by
kernel reduction. -/

/-- Prefix test on character lists: `listPre pat l` holds when `pat`
begins `l`. -/
def listPre : List Char → List Char → Bool
  | [], _ => true
  | _ :: _, [] => false
  | a :: as, b :: bs => a = b && listPre as bs

/-- Index of the first occurrence of `pat` as a contiguous run of `l`
(`none` when absent): Python's `pat in s` / `s.index(pat)`. -/
def substrIdx : List Char → List Char → Option Nat
  | [], pat => if listPre pat [] then some 0 else none
  | a :: t, pat =>
    if listPre pat (a :: t) then some 0
    else (substrIdx t pat).map (· + 1)

/-- Python's `pat in s` substring test. -/
def containsSub (s pat : String) : Bool :=
  (substrIdx s.toList pat.toList).isSome

/-- ASCII lowercasing of one character (Python `str.lower` restricted
to the ASCII texts handled here). -/
def lowerChar (c : Char) : Char :=
  if 'A' ≤ c ∧ c ≤ 'Z' then Char.ofNat (c.toNat + 32) else c

/-- Python `s.lower()`. -/
def lowerStr (s : String) : String :=
  (s.toList.map lowerChar).asString

/-- Python `s.strip()`: drop leading and trailing whitespace. -/
def pyStrip (s : String) : String :=
  ((s.toList.dropWhile Char.isWhitespace).reverse.dropWhile
    Char.isWhitespace).reverse.asString

/-! ## Content blocks and text extraction (src/agents/nodes.py `_extract_text`) -/

/-- One element of a structured content list, as inspected by
`_extract_text`: a dict (only its "type" and "text" fields matter,
`none` standing for an absent or non-string value), a plain string, or
any other Python value (skipped). -/
inductive ContentBlock where
  | dict (ty : Option String) (text : Option String)
  | str (s : String)
  | other
deriving DecidableEq, Repr

/-- Message content as produced by the reasoning service: a plain
string, a list of blocks, or any other value (whose `str()` rendering
is recorded). -/
inductive Content where
  | str (s : String)
  | list (blocks : List ContentBlock)
  | other (pyStr : String)
deriving DecidableEq, Repr

/-- Per-block filter of `_extract_text` in src/agents/nodes.py: keep a
dict block only when its "type" is "text" and its "text" (defaulting to
"") has non-blank content; keep a plain-string block when non-blank. -/
def extractBlock : ContentBlock → Option String
  | .dict ty text =>
      if ty = some "text" then
        let t := text.getD ""
        if pyStrip t ≠ "" then some t else none
      else none
  | .str s => if pyStrip s ≠ "" then some s else none
  | .other => none

/-- Embedding of `_extract_text` from src/agents/nodes.py lines 130-153:
a plain string is returned unchanged; a list is filtered to its kept
blocks joined with newlines; anything else is rendered via `str()`. -/
def extract_text (c : Content) : String :=
  match c with
  | .str s => s
  | .list blocks => String.intercalate "\n" (blocks.filterMap extractBlock)
  | .other r => r

/-- Per-block filter of the `_extract_text` copy in
src/agents/supervisor.py (textually identical to the one in nodes.py). -/
def extractBlockS : ContentBlock → Option String
  | .dict ty text =>
      if ty = some "text" then
        let t := text.getD ""
        if pyStrip t ≠ "" then some t else none
      else none
  | .str s => if pyStrip s ≠ "" then some s else none
  | .other => none

/-- Embedding of `_extract_text` from src/agents/supervisor.py lines
32-48 (textually identical to the copy in nodes.py). -/
def extract_textS (c : Content) : String :=
  match c with
  | .str s => s
  | .list blocks => String.intercalate "\n" (blocks.filterMap extractBlockS)
  | .other r => r

/-! ## Rate-limit classification and retry (src/utils.py) -/

/-- Keywords scanned for in the lowercased exception text
(src/utils.py lines 56-60). -/
def RATE_LIMIT_KEYWORDS : List String :=
  ["429", "resource_exhausted", "rate limit", "quota"]

/-- Rate-limit classification of src/utils.py lines 56-60:
`any(keyword in str(e).lower() for keyword in [...])`. -/
def isRateLimit (errStr : String) : Bool :=
  RATE_LIMIT_KEYWORDS.any (fun kw => containsSub (lowerStr errStr) kw)

/-- Execution of the retry loop of `retry_with_backoff` (src/utils.py
lines 52-80), starting at invocation index `attempt` with `fuel`
retries still allowed.  `func i` is the outcome of the (i+1)-th
invocation of the wrapped operation: `.ok v` success, `.error e` an
exception whose `str(e)` is `e`.  Returns the overall outcome together
with the number of invocations performed.  With `fuel = 0` (that is,
`attempt = max_retries`) every exception is re-raised because of the
`attempt >= max_retries` disjunct. -/
def retryAux (func : Nat → Except String α) : Nat → Nat → Except String α × Nat
  | 0, attempt =>
    match func attempt with
    | .ok v => (.ok v, 1)
    | .error e => (.error e, 1)
  | fuel + 1, attempt =>
    match func attempt with
    | .ok v => (.ok v, 1)
    | .error e =>
      if isRateLimit e then
        let p := retryAux func fuel (attempt + 1)
        (p.1, p.2 + 1)
      else (.error e, 1)

/-- Embedding of `retry_with_backoff` (src/utils.py lines 26-80):
result of the loop `for attempt in range(max_retries + 1)` together
with the number of invocations of `func`. -/
def retry_with_backoff (func : Nat → Except String α) (max_retries : Nat) :
    Except String α × Nat :=
  retryAux func max_retries 0

/-- Pre-jitter delay of src/utils.py line 66:
`delay = min(base_delay * (2 ** attempt), max_delay)`. -/
def backoffDelay (base_delay max_delay : ℚ) (attempt : Nat) : ℚ :=
  min (base_delay * 2 ^ attempt) max_delay

/-- Delay actually slept at a given attempt (src/utils.py lines 66-68):
the capped exponential delay, plus — when `jitter` is enabled — the
draw of `random.uniform(0, delay * 0.3)` for that attempt. -/
def sleptDelay (base_delay max_delay : ℚ) (jitter : Bool)
    (jitterDraw : Nat → ℚ) (attempt : Nat) : ℚ :=
  backoffDelay base_delay max_delay attempt +
    (if jitter then jitterDraw attempt else 0)

/-- A jitter draw is valid at `attempt` when it lies in the range of
`random.uniform(0, delay * 0.3)` for that attempt's capped delay. -/
def validJitterDraw (base_delay max_delay : ℚ) (jitterDraw : Nat → ℚ)
    (attempt : Nat) : Prop :=
  0 ≤ jitterDraw attempt ∧
    jitterDraw attempt ≤ backoffDelay base_delay max_delay attempt * (3 / 10)

/-! ## Messages, tool calls and state (src/state/schema.py) -/

/-- A tool-call request emitted by the reasoning service
(`response.tool_calls` entries in src/agents/nodes.py): a tool name,
its (opaque) arguments, and a stable call identifier. -/
structure ToolCall where
  name : String
  args : String
  id : String
deriving DecidableEq, Repr

/-- A transcript message: SystemMessage, HumanMessage, AIMessage (with
its optional agent-name attribution and tool-call requests), or
ToolMessage (whose content is the stringified tool result, paired with
its call identifier). -/
inductive Msg where
  | system (content : Content)
  | human (content : Content)
  | ai (name : Option String) (content : Content) (tool_calls : List ToolCall)
  | tool (content : String) (tool_call_id : String)
deriving DecidableEq, Repr

/-- One `risk_signals` record (`{"agent": ..., "analysis": ...}`
appended by each agent node in src/agents/nodes.py). -/
structure RiskSignal where
  agent : String
  analysis : String
deriving DecidableEq, Repr

/-- The shared `AgentState` of src/state/schema.py. -/
structure AgentState where
  messages : List Msg
  next_agent : String
  current_company : String
  risk_signals : List RiskSignal
  final_report : String
  iteration_count : Nat
deriving Repr

/-- The initial state built in src/main.py lines 78-85: one user
message, empty `risk_signals`, `iteration_count = 0`. -/
def initState (query : String) : AgentState :=
  { messages := [Msg.human (Content.str query)]
    next_agent := ""
    current_company := ""
    risk_signals := []
    final_report := ""
    iteration_count := 0 }

/-! ## Supervisor routing (src/agents/supervisor.py) -/

/-- Required pipeline order (src/agents/supervisor.py line 28). -/
def REQUIRED_PIPELINE : List String :=
  ["geopolitical_analyst", "credit_evaluator", "market_synthesizer"]

/-- Options offered to the adaptive routing decision
(src/agents/supervisor.py line 29). -/
def AGENT_OPTIONS : List String := REQUIRED_PIPELINE ++ ["FINISH"]

/-- Outcome of `json.loads(json_str).get("next", "FINISH")` on a parsed
object: the candidate is either a JSON string or some non-string JSON
value (which can never equal a member of `AGENT_OPTIONS`). -/
inductive JsonCandidate where
  | jstr (s : String)
  | jnonstr
deriving DecidableEq, Repr

/-- The opening-brace character searched for by `content.index` in
src/agents/supervisor.py line 109. -/
def lbrace : Char := Char.ofNat 123

/-- The closing-brace character searched for by `content.rindex` in
src/agents/supervisor.py line 109. -/
def rbrace : Char := Char.ofNat 125

/-- Index of the first occurrence of a character (Python `s.index(c)`,
`none` when `c` is absent, in which case Python raises ValueError). -/
def firstIdx (s : String) (c : Char) : Option Nat :=
  s.toList.findIdx? (· = c)

/-- Index of the last occurrence of a character (Python `s.rindex(c)`,
`none` when `c` is absent, in which case Python raises ValueError). -/
def lastIdx (s : String) (c : Char) : Option Nat :=
  match s.toList.reverse.findIdx? (· = c) with
  | none => none
  | some i => some (s.toList.length - 1 - i)

/-- Python slice `s[a:b]` on character positions (empty when `b ≤ a`). -/
def pySlice (s : String) (a b : Nat) : String :=
  ((s.toList.drop a).take (b - a)).asString

/-- The `except` branch of src/agents/supervisor.py lines 114-118: the
first member of `AGENT_OPTIONS` whose lowercase form occurs in the
lowercased content, defaulting to "FINISH". -/
def fallbackScan (content : String) : String :=
  match AGENT_OPTIONS.find? (fun option =>
      containsSub (lowerStr content) (lowerStr option)) with
  | some option => option
  | none => "FINISH"

/-- Embedding of the routing-decision parsing of
src/agents/supervisor.py lines 106-118, parameterised by `jsonNext`,
the abstraction of `json.loads(json_str).get("next", "FINISH")`
(`.error ()` standing for a raised `json.JSONDecodeError`).  The `try`
body runs only when the content contains an opening brace; a missing
closing brace makes `content.rindex` raise ValueError, landing in the
same `except` branch as a JSON parse failure.  When the brace-delimited
slice parses but the candidate is not a member of `AGENT_OPTIONS`, the
default "FINISH" stands and no fallback happens. -/
def parseDecision (jsonNext : String → Except Unit JsonCandidate)
    (content : String) : String :=
  match firstIdx content lbrace with
  | none => "FINISH"
  | some i =>
    match lastIdx content rbrace with
    | none => fallbackScan content
    | some j =>
      match jsonNext (pySlice content i (j + 1)) with
      | .error _ => fallbackScan content
      | .ok (.jstr candidate) =>
          if AGENT_OPTIONS.contains candidate then candidate else "FINISH"
      | .ok .jnonstr => "FINISH"

/-- Embedding of `supervisor_node` (src/agents/supervisor.py lines
51-121), returning the `next_agent` value of its partial state update.
The adaptive-phase reasoning response is supplied as `llmContent` (the
`response.content` returned through `retry_with_backoff`), and
`jsonNext` abstracts `json.loads`.  The ceiling guard and the
deterministic pipeline scan never consult either parameter. -/
def supervisor_node (jsonNext : String → Except Unit JsonCandidate)
    (llmContent : Content) (state : AgentState) : String :=
  if state.iteration_count ≥ 10 then "FINISH"
  else
    let agents_reported := state.risk_signals.map RiskSignal.agent
    match REQUIRED_PIPELINE.find? (fun agent => !(agents_reported.contains agent)) with
    | some agent => agent
    | none => parseDecision jsonNext (pyStrip (extract_textS llmContent))

/-! ## Tool dispatch and the ReAct loop (src/agents/nodes.py) -/

/-- Rendering of `json.dumps` applied to a one-field error dict
(src/agents/nodes.py lines 71 and 73), for messages without characters
needing JSON escaping. -/
def jsonErrorStr (msg : String) : String :=
  "\x7b\"error\": \"" ++ msg ++ "\"\x7d"

/-- A tool registry: `registry name` is `TOOL_REGISTRY.get(name)`.  A
registered tool maps its arguments to `.ok` (the stringified success
payload) or `.error` (the text of a raised exception); the concrete
tool implementations are external collaborators. -/
def Registry : Type :=
  String → Option (String → Except String String)

/-- Embedding of `_execute_tool_calls` (src/agents/nodes.py lines
59-76): one ToolMessage per requested call, in call order; a raised
tool exception or an unregistered name degrades to a structured error
payload rather than propagating. -/
def execute_tool_calls (registry : Registry) (tool_calls : List ToolCall) :
    List Msg :=
  tool_calls.map (fun tc =>
    match registry tc.name with
    | some fn =>
      match fn tc.args with
      | .ok result => Msg.tool result tc.id
      | .error e =>
          Msg.tool (jsonErrorStr ("Tool " ++ tc.name ++ " failed: " ++ e)) tc.id
    | none => Msg.tool (jsonErrorStr ("Unknown tool: " ++ tc.name)) tc.id)

/-- A reasoning-service response for one loop iteration: content plus
requested tool calls (`response.content`, `response.tool_calls`). -/
structure AIResp where
  content : Content
  tool_calls : List ToolCall
deriving Repr

/-- The `for iteration in range(max_iterations)` loop of
`_run_react_loop` (src/agents/nodes.py lines 95-111), with the
reasoning service abstracted as a function of the working transcript.
Accumulates the working transcript, the last response (`response`,
initially `None`), and the number of iterations executed.  An
iteration whose response requests no tool calls breaks the loop. -/
def reactAux (llm : List Msg → AIResp) (registry : Registry) :
    Nat → List Msg → Option AIResp → Nat → List Msg × Option AIResp × Nat
  | 0, msgs, last, iters => (msgs, last, iters)
  | fuel + 1, msgs, _, iters =>
    let r := llm msgs
    let msgs1 := msgs ++ [Msg.ai none r.content r.tool_calls]
    if r.tool_calls.isEmpty then (msgs1, some r, iters + 1)
    else
      reactAux llm registry fuel (msgs1 ++ execute_tool_calls registry r.tool_calls)
        (some r) (iters + 1)

/-- Truthiness of `getattr(msg, "tool_calls", None)`: only an AIMessage
with a non-empty tool-call list is truthy; system, human and tool
messages lack the attribute (so `getattr` yields `None`), and an
AIMessage with an empty list is falsy. -/
def msgToolCallsTruthy : Msg → Bool
  | .ai _ _ tcs => !tcs.isEmpty
  | _ => false

/-- The `content` attribute of a message (every LangChain message type
has one, so `hasattr(msg, "content")` always holds; a ToolMessage's
content is its stringified result). -/
def msgContent : Msg → Content
  | .system c => c
  | .human c => c
  | .ai _ c _ => c
  | .tool s _ => Content.str s

/-- The `tool_call_id` carried by a ToolMessage (`none` for any other
message kind). -/
def msgToolId : Msg → Option String
  | .tool _ tid => some tid
  | _ => none

/-- Body of the backward-scan filter of `_run_react_loop`
(src/agents/nodes.py lines 120-125): a message with falsy `tool_calls`
whose extracted text is non-blank and longer than 50 characters after
stripping yields that text. -/
def substantive (m : Msg) : Option String :=
  if msgToolCallsTruthy m then none
  else
    let candidate := extract_text (msgContent m)
    if pyStrip candidate ≠ "" ∧ (pyStrip candidate).length > 50 then some candidate
    else none

/-- The backward scan itself: first substantive candidate of the
reversed message list. -/
def fallbackText (msgs : List Msg) : Option String :=
  msgs.reverse.findSome? substantive

/-- Embedding of `_run_react_loop` (src/agents/nodes.py lines 79-127):
the final text together with the number of loop iterations executed.
The working transcript is seeded with the system prompt followed by the
prior messages; the final text is extracted from the last response,
with the backward-scan fallback applied when it is blank, and the fixed
sentinel returned when everything is blank. -/
def run_react_loop (llm : List Msg → AIResp) (registry : Registry)
    (system_prompt : String) (state_messages : List Msg)
    (max_iterations : Nat) : String × Nat :=
  let msgs0 := Msg.system (Content.str system_prompt) :: state_messages
  let res := reactAux llm registry max_iterations msgs0 none 0
  let msgs := res.1
  let last := res.2.1
  let iters := res.2.2
  let final0 := match last with | some r => extract_text r.content | none => ""
  let final1 :=
    if pyStrip final0 = "" ∧ msgs.length > 1 then (fallbackText msgs.dropLast).getD final0
    else final0
  (if pyStrip final1 = "" then "Analysis could not be completed." else final1, iters)

/-! ## Agent nodes (src/agents/nodes.py lines 157-231) -/

/-- Partial state update returned by an agent node: appended messages,
appended risk signals, optional `final_report`, and the written
`iteration_count`. -/
structure NodeUpdate where
  messages : List Msg
  risk_signals : List RiskSignal
  final_report : Option String
  iteration_count : Nat
deriving Repr

/-- Embedding of `geopolitical_analyst_node` (src/agents/nodes.py lines
157-175); the system prompt text (GEOPOLITICAL_ANALYST_PROMPT) is data
from src/agents/prompts.py, passed here as a parameter. -/
def geopolitical_analyst_node (llm : List Msg → AIResp) (registry : Registry)
    (prompt : String) (state : AgentState) : NodeUpdate :=
  let final_content := (run_react_loop llm registry prompt state.messages 6).1
  { messages := [Msg.ai (some "geopolitical_analyst")
      (Content.str ("[GEOPOLITICAL ANALYST]\n\n" ++ final_content)) []]
    risk_signals := [⟨"geopolitical_analyst", final_content⟩]
    final_report := none
    iteration_count := state.iteration_count + 1 }

/-- Embedding of `credit_evaluator_node` (src/agents/nodes.py lines
179-197). -/
def credit_evaluator_node (llm : List Msg → AIResp) (registry : Registry)
    (prompt : String) (state : AgentState) : NodeUpdate :=
  let final_content := (run_react_loop llm registry prompt state.messages 6).1
  { messages := [Msg.ai (some "credit_evaluator")
      (Content.str ("[CREDIT RISK EVALUATOR]\n\n" ++ final_content)) []]
    risk_signals := [⟨"credit_evaluator", final_content⟩]
    final_report := none
    iteration_count := state.iteration_count + 1 }

/-- Report-start delimiter searched for by `market_synthesizer_node`
(src/agents/nodes.py line 220). -/
def report_marker : String := "═══"

/-- The preamble-trimming of src/agents/nodes.py lines 220-223: when
the report marker occurs, keep the suffix starting at its first
occurrence; otherwise keep the full text. -/
def stripPreamble (s : String) : String :=
  match substrIdx s.toList report_marker.toList with
  | some i => (s.toList.drop i).asString
  | none => s

/-- Embedding of `market_synthesizer_node` (src/agents/nodes.py lines
201-231): iteration budget 4, preamble trimming, and the additional
`final_report` field. -/
def market_synthesizer_node (llm : List Msg → AIResp) (registry : Registry)
    (prompt : String) (state : AgentState) : NodeUpdate :=
  let raw := (run_react_loop llm registry prompt state.messages 4).1
  let final_content := stripPreamble raw
  { messages := [Msg.ai (some "market_synthesizer")
      (Content.str ("[MARKET SYNTHESIZER]\n\n" ++ final_content)) []]
    risk_signals := [⟨"market_synthesizer", final_content⟩]
    final_report := some final_content
    iteration_count := state.iteration_count + 1 }

/-! ## Graph step discipline (src/graph.py, src/state/schema.py) -/

/-- Application of an agent node's partial update to the shared state,
following the reducers of src/state/schema.py: `messages` and
`risk_signals` append, `next_agent` and `final_report` overwrite (the
latter only when written), `iteration_count` overwrites with the
node-computed value. -/
def mergeUpdate (s : AgentState) (next : String) (u : NodeUpdate) : AgentState :=
  { messages := s.messages ++ u.messages
    next_agent := next
    current_company := s.current_company
    risk_signals := s.risk_signals ++ u.risk_signals
    final_report := u.final_report.getD s.final_report
    iteration_count := u.iteration_count }

/-- Dispatch of `_route_supervisor` (src/graph.py lines 36-41) to the
node registered under the routed name (src/graph.py lines 58-76). -/
def runAgent (llm : List Msg → AIResp) (registry : Registry) (prompt : String)
    (name : String) (s : AgentState) : NodeUpdate :=
  if name = "geopolitical_analyst" then geopolitical_analyst_node llm registry prompt s
  else if name = "credit_evaluator" then credit_evaluator_node llm registry prompt s
  else market_synthesizer_node llm registry prompt s

/-- One full cycle of the orchestration graph: the supervisor (with
some adaptive-phase oracle) routes to a non-FINISH agent, that agent
runs (with some reasoning/tool oracles), and its partial update is
merged into the state.  A FINISH decision ends the run, so it produces
no step. -/
inductive Step : AgentState → AgentState → Prop where
  | agent (jsonNext : String → Except Unit JsonCandidate) (c : Content)
      (llm : List Msg → AIResp) (registry : Registry) (prompt : String)
      (s : AgentState) (name : String)
      (hroute : supervisor_node jsonNext c s = name)
      (hne : name ≠ "FINISH") :
      Step s (mergeUpdate s name (runAgent llm registry prompt name s))

/-- Reachability of a state from a run's starting state through graph
cycles. -/
def Reachable (s0 s : AgentState) : Prop :=
  Relation.ReflTransGen Step s0 s

/-! ## Concrete instances used in scenarios -/

/-- A strict-parse oracle that fails on every input, as `json.loads`
does on any non-JSON text. -/
def jsonNextNone : String → Except Unit JsonCandidate := fun _ => .error ()

/-- A state in which all three required agents have reported and the
iteration ceiling is not reached. -/
def allReportedState : AgentState :=
  { messages := [Msg.human (Content.str "analyze ACME")]
    next_agent := ""
    current_company := ""
    risk_signals := [⟨"geopolitical_analyst", "a"⟩, ⟨"credit_evaluator", "b"⟩,
      ⟨"market_synthesizer", "c"⟩]
    final_report := ""
    iteration_count := 3 }

/-- The `allReportedState` scenario pushed to the iteration ceiling. -/
def atCeilingState : AgentState :=
  { allReportedState with iteration_count := 10 }

/-- A reasoning service whose every response has empty content and no
tool calls. -/
def llmEmptyText : List Msg → AIResp := fun _ => ⟨Content.str "", []⟩

/-- A reasoning service whose every response is a short plain answer
with no tool calls. -/
def llmPlain : List Msg → AIResp :=
  fun _ => ⟨Content.str "All clear, overall risk is low.", []⟩

/-- A reasoning service whose every response is a report preceded by a
preamble before the report marker, with no tool calls. -/
def llmMarker : List Msg → AIResp :=
  fun _ => ⟨Content.str "Intro\n═══ REPORT ═══\nBody", []⟩

/-- A reasoning service that requests the unregistered tool "foo" on
every iteration. -/
def llmToolLoop : List Msg → AIResp :=
  fun _ => ⟨Content.str "t", [⟨"foo", "a", "id1"⟩]⟩

/-- A registry with no tools registered (every lookup misses). -/
def emptyRegistry : Registry := fun _ => none

/-- A system prompt longer than the 50-character fallback threshold. -/
def sysPromptEx : String :=
  "You are a geopolitical analyst covering sovereign and macro risk."

/-- A concrete jitter draw: the full 30% of the capped delay at attempt
0, nothing afterwards. -/
def exJitterDraw : Nat → ℚ := fun n => if n = 0 then 36 else 0

/-- An upstream operation that raises a rate-limited error on every
invocation. -/
def rlFunc : Nat → Except String Nat :=
  fun _ => Except.error "429 Too Many Requests"

end RiskAnalysis

namespace RiskAnalysis

/-! ## Theorems -/

/-- Positivity of the invocation count: the retry loop always invokes
the wrapped operation at least once. -/
theorem retryAux_pos {α : Type} (func : Nat → Except String α)
    (fuel attempt : Nat) : 1 ≤ (retryAux func fuel attempt).2 := by
  induction fuel generalizing attempt with
  | zero => cases h : func attempt <;> simp [retryAux, h]
  | succ n ih =>
    cases h : func attempt with
    | ok v => simp [retryAux, h]
    | error e =>
      by_cases hr : isRateLimit e <;> simp [retryAux, h, hr]

/-- Exhaustion lemma: when every invocation in range raises a
rate-limited error, the loop performs `fuel + 1` invocations and
re-raises the last error. -/
theorem retryAux_all_rate {α : Type} (func : Nat → Except String α)
    (fuel attempt : Nat)
    (h : ∀ i, attempt ≤ i → i ≤ attempt + fuel →
      ∃ e, func i = Except.error e ∧ isRateLimit e = true) :
    ∃ elast, func (attempt + fuel) = Except.error elast ∧
      retryAux func fuel attempt = (Except.error elast, fuel + 1) := by
  induction fuel generalizing attempt with
  | zero =>
    obtain ⟨e, he, _⟩ := h attempt le_rfl (by omega)
    exact ⟨e, by simpa using he, by simp [retryAux, he]⟩
  | succ n ih =>
    obtain ⟨e, he, hr⟩ := h attempt le_rfl (by omega)
    obtain ⟨elast, hl, hrec⟩ :=
      ih (attempt + 1) (fun i h1 h2 => h i (by omega) (by omega))
    refine ⟨elast, ?_, ?_⟩
    · have harith : attempt + 1 + n = attempt + (n + 1) := by omega
      rwa [harith] at hl
    · simp [retryAux, he, hr, hrec]

/-- C2: `retry_with_backoff` retries an invocation if and only if the
raised error is rate-limit-classified: a first-attempt error without
the rate-limit signature is re-raised after exactly one invocation
(zero retries); a rate-limited first error with retries remaining leads
to at least a second invocation; and when every invocation raises a
rate-limited error the loop performs `max_retries + 1` invocations and
re-raises the last such error. -/
theorem retry_classification {α : Type} (func : Nat → Except String α)
    (mr : Nat) (e0 : String) (h0 : func 0 = Except.error e0) :
    (isRateLimit e0 = false →
      retry_with_backoff func mr = (Except.error e0, 1)) ∧
    (isRateLimit e0 = true → 0 < mr →
      2 ≤ (retry_with_backoff func mr).2) ∧
    ((∀ i, i ≤ mr → ∃ e, func i = Except.error e ∧ isRateLimit e = true) →
      ∃ elast, func mr = Except.error elast ∧
        retry_with_backoff func mr = (Except.error elast, mr + 1)) := by
  refine ⟨?_, ?_, ?_⟩
  · intro hnr
    cases mr with
    | zero => simp [retry_with_backoff, retryAux, h0]
    | succ n => simp [retry_with_backoff, retryAux, h0, hnr]
  · intro hr hpos
    cases mr with
    | zero => exact absurd hpos (by omega)
    | succ n =>
      have hp := retryAux_pos func n 1
      simp [retry_with_backoff, retryAux, h0, hr]
      omega
  · intro hall
    have h := retryAux_all_rate func mr 0 (fun i _ h2 => hall i (by omega))
    simpa using h

/-- Witness for `retry_classification`: a constantly rate-limited
operation under `max_retries = 1` is invoked twice and the last error
is re-raised. -/
theorem retry_classification_witness :
    rlFunc 0 = Except.error "429 Too Many Requests" ∧
    (∃ elast, rlFunc 1 = Except.error elast ∧
      retry_with_backoff rlFunc 1 = (Except.error elast, 2)) := by
  have h := retry_classification rlFunc 1 "429 Too Many Requests" rfl
  exact ⟨rfl, h.2.2 (fun i _ => ⟨"429 Too Many Requests", rfl, by decide⟩)⟩

/-- C3 counterexample: with jitter enabled (the default), a valid run
of jitter draws at `base_delay = max_delay = 120` makes the first slept
delay exceed `max_delay` and the second slept delay smaller than the
first — the slept sequence is neither capped at `max_delay` nor
non-decreasing. -/
theorem backoff_delay_claim_false :
    validJitterDraw 120 120 exJitterDraw 0 ∧
    validJitterDraw 120 120 exJitterDraw 1 ∧
    sleptDelay 120 120 true exJitterDraw 1 < sleptDelay 120 120 true exJitterDraw 0 ∧
    120 < sleptDelay 120 120 true exJitterDraw 0 := by
  norm_num [validJitterDraw, sleptDelay, backoffDelay, exJitterDraw]

/-- C3 amended: for every non-negative `base_delay`, the pre-jitter
delay sequence `min(base_delay * 2^attempt, max_delay)` is
non-decreasing and capped at `max_delay`, and equals the slept delay
when jitter is disabled; with jitter enabled the slept delay is only
bounded below by the pre-jitter delay and above by 130% of it (so it
may exceed `max_delay` by up to 30%). -/
theorem backoff_delay_monotone_capped (b M : ℚ) (hb : 0 ≤ b)
    (jd : Nat → ℚ) (i : Nat) (hj : validJitterDraw b M jd i) :
    backoffDelay b M i ≤ backoffDelay b M (i + 1) ∧
    backoffDelay b M i ≤ M ∧
    sleptDelay b M false jd i = backoffDelay b M i ∧
    backoffDelay b M i ≤ sleptDelay b M true jd i ∧
    sleptDelay b M true jd i ≤ backoffDelay b M i * (13 / 10) := by
  obtain ⟨hj0, hj1⟩ := hj
  refine ⟨?_, min_le_right _ _, by simp [sleptDelay], ?_, ?_⟩
  · refine min_le_min ?_ le_rfl
    have hpow : (2 : ℚ) ^ i ≤ 2 ^ (i + 1) := by
      exact pow_le_pow_right₀ (by norm_num) (Nat.le_succ i)
    exact mul_le_mul_of_nonneg_left hpow hb
  · simp only [sleptDelay, if_true]
    linarith
  · simp only [sleptDelay, if_true]
    linarith

/-- Witness for `backoff_delay_monotone_capped` at `base_delay = 15`,
`max_delay = 120`, attempt 1, zero jitter draw. -/
theorem backoff_delay_monotone_capped_witness :
    (0 : ℚ) ≤ 15 ∧ validJitterDraw 15 120 exJitterDraw 1 ∧
    (backoffDelay 15 120 1 ≤ backoffDelay 15 120 2 ∧
      backoffDelay 15 120 1 ≤ 120 ∧
      sleptDelay 15 120 false exJitterDraw 1 = backoffDelay 15 120 1 ∧
      backoffDelay 15 120 1 ≤ sleptDelay 15 120 true exJitterDraw 1 ∧
      sleptDelay 15 120 true exJitterDraw 1 ≤ backoffDelay 15 120 1 * (13 / 10)) := by
  have hb : (0 : ℚ) ≤ 15 := by norm_num
  have hj : validJitterDraw 15 120 exJitterDraw 1 := by
    norm_num [validJitterDraw, backoffDelay, exJitterDraw]
  exact ⟨hb, hj, backoff_delay_monotone_capped 15 120 hb exJitterDraw 1 hj⟩

/-- C1 counterexample: for the literal routing response
`not valid json credit_evaluator please` — which contains no opening
brace, so the strict-parse attempt is skipped without raising and the
substring fallback never runs — the supervisor decision in the
adaptive phase is "FINISH", not "credit_evaluator", even though the
fallback's case-insensitive substring test would have matched. -/
theorem supervisor_substring_fallback_claim_false :
    supervisor_node jsonNextNone
      (Content.str "not valid json credit_evaluator please")
      allReportedState = "FINISH" ∧
    containsSub (lowerStr "not valid json credit_evaluator please")
      (lowerStr "credit_evaluator") = true ∧
    "FINISH" ≠ "credit_evaluator" := by
  refine ⟨by decide, by decide, by decide⟩

/-- Characterization of `supervisor_node` below the iteration
ceiling. -/
theorem supervisor_below (jn : String → Except Unit JsonCandidate)
    (c : Content) (s : AgentState) (h10 : s.iteration_count < 10) :
    supervisor_node jn c s =
      match REQUIRED_PIPELINE.find?
          (fun agent => !((s.risk_signals.map RiskSignal.agent).contains agent)) with
      | some agent => agent
      | none => parseDecision jn (pyStrip (extract_textS c)) := by
  unfold supervisor_node
  rw [if_neg (by omega)]

/-- C1 (amended): in the adaptive phase (below the ceiling, all
required agents reported) the supervisor parses the routing response
without ever raising, as follows: it applies `parseDecision` to the
stripped extracted text; a text with no opening brace skips the strict
parse and yields the default "FINISH" (no substring fallback); a text
with an opening brace whose strict parse fails — a missing closing
brace or an unparseable brace-delimited slice — resolves by
case-insensitive substring matching against the option names, itself
defaulting to "FINISH" when nothing matches.  In particular the
literal response `not valid json credit_evaluator please` resolves to
"FINISH". -/
theorem supervisor_adaptive_parse (jn : String → Except Unit JsonCandidate)
    (c : Content) (s : AgentState) (h10 : s.iteration_count < 10)
    (hall : ∀ a ∈ REQUIRED_PIPELINE, a ∈ s.risk_signals.map RiskSignal.agent) :
    supervisor_node jn c s = parseDecision jn (pyStrip (extract_textS c)) ∧
    (∀ content : String,
      (firstIdx content lbrace = none → parseDecision jn content = "FINISH") ∧
      (∀ i, firstIdx content lbrace = some i →
        (lastIdx content rbrace = none ∨
          (∃ j, lastIdx content rbrace = some j ∧
            jn (pySlice content i (j + 1)) = Except.error ())) →
        parseDecision jn content = fallbackScan content) ∧
      (∀ option, fallbackScan content = option →
        option = "FINISH" ∨ (option ∈ AGENT_OPTIONS ∧
          containsSub (lowerStr content) (lowerStr option) = true)) ∧
      ((∀ o ∈ AGENT_OPTIONS,
          containsSub (lowerStr content) (lowerStr o) = false) →
        fallbackScan content = "FINISH")) ∧
    supervisor_node jsonNextNone
      (Content.str "not valid json credit_evaluator please")
      allReportedState = "FINISH" := by
  refine ⟨?_, ?_, by decide⟩
  · rw [supervisor_below jn c s h10]
    have hnone : REQUIRED_PIPELINE.find?
        (fun agent => !((s.risk_signals.map RiskSignal.agent).contains agent)) = none := by
      rw [List.find?_eq_none]
      intro a ha
      have hmem := hall a ha
      simp [List.contains, List.elem_iff, hmem]
    rw [hnone]
  · intro content
    refine ⟨?_, ?_, ?_, ?_⟩
    · intro h
      simp [parseDecision, h]
    · intro i hi hfail
      rcases hfail with hj | ⟨j, hj, herr⟩
      · simp [parseDecision, hi, hj]
      · simp [parseDecision, hi, hj, herr]
    · intro option hopt
      cases hfind : AGENT_OPTIONS.find? (fun o =>
          containsSub (lowerStr content) (lowerStr o)) with
      | none =>
        have hdef : fallbackScan content = "FINISH" := by
          unfold fallbackScan
          rw [hfind]
        exact Or.inl (hopt.symm.trans hdef)
      | some o =>
        have hdef : fallbackScan content = o := by
          unfold fallbackScan
          rw [hfind]
        have hoo : option = o := hopt.symm.trans hdef
        subst hoo
        exact Or.inr ⟨List.mem_of_find?_eq_some hfind,
          by simpa using List.find?_some hfind⟩
    · intro hnone
      unfold fallbackScan
      rw [List.find?_eq_none.mpr (fun o ho => by simp [hnone o ho])]

/-- Witness for `supervisor_adaptive_parse`: the all-reported state at
iteration 3 with a braced but unparseable routing response. -/
theorem supervisor_adaptive_parse_witness :
    allReportedState.iteration_count < 10 ∧
    (∀ a ∈ REQUIRED_PIPELINE,
      a ∈ allReportedState.risk_signals.map RiskSignal.agent) ∧
    supervisor_node jsonNextNone (Content.str "route \x7bcredit_evaluator\x7d now")
        allReportedState =
      parseDecision jsonNextNone
        (pyStrip (extract_textS (Content.str "route \x7bcredit_evaluator\x7d now"))) := by
  have h10 : allReportedState.iteration_count < 10 := by decide
  have hall : ∀ a ∈ REQUIRED_PIPELINE,
      a ∈ allReportedState.risk_signals.map RiskSignal.agent := by decide
  exact ⟨h10, hall,
    (supervisor_adaptive_parse jsonNextNone
      (Content.str "route \x7bcredit_evaluator\x7d now") allReportedState h10 hall).1⟩

/-- Ceiling guard of `supervisor_node` (src/agents/supervisor.py lines
57-61): at or above 10 iterations the decision is "FINISH" regardless
of any other state or oracle. -/
theorem supervisor_ceiling (jn : String → Except Unit JsonCandidate)
    (c : Content) (s : AgentState) (h : 10 ≤ s.iteration_count) :
    supervisor_node jn c s = "FINISH" := by
  unfold supervisor_node
  rw [if_pos h]

/-- Every agent node writes `iteration_count` as the incoming count
plus one. -/
theorem runAgent_iteration (llm : List Msg → AIResp) (registry : Registry)
    (prompt name : String) (s : AgentState) :
    (runAgent llm registry prompt name s).iteration_count =
      s.iteration_count + 1 := by
  by_cases h1 : name = "geopolitical_analyst" <;>
    by_cases h2 : name = "credit_evaluator" <;>
    simp [runAgent, h1, h2, geopolitical_analyst_node, credit_evaluator_node,
      market_synthesizer_node]

/-- A graph step preserves the iteration ceiling: a step can only fire
below the ceiling (otherwise the supervisor decides "FINISH" and the
run ends), and it increments the count by one. -/
theorem step_iteration_le (s t : AgentState) (h : Step s t)
    (hs : s.iteration_count ≤ 10) : t.iteration_count ≤ 10 := by
  cases h with
  | agent jn c llm registry prompt s name hroute hne =>
    have hlt : s.iteration_count < 10 := by
      by_contra hge
      have hfin := supervisor_ceiling jn c s (by omega)
      rw [hroute] at hfin
      exact hne hfin
    simp only [mergeUpdate, runAgent_iteration]
    omega

/-- C4: in every run state reachable from an initial state (whose
iteration count is zero), `iteration_count` never exceeds the fixed
ceiling of 10; and whenever the supervisor is evaluated on a state at
or above the ceiling it returns "FINISH" regardless of transcript
content, risk signals, or any other state. -/
theorem iteration_ceiling (s0 s : AgentState) (h0 : s0.iteration_count = 0)
    (hreach : Reachable s0 s) (jn : String → Except Unit JsonCandidate)
    (c : Content) (s' : AgentState) (h10 : 10 ≤ s'.iteration_count) :
    s.iteration_count ≤ 10 ∧ supervisor_node jn c s' = "FINISH" := by
  refine ⟨?_, supervisor_ceiling jn c s' h10⟩
  induction hreach with
  | refl => omega
  | tail _ hstep ih => exact step_iteration_le _ _ hstep ih

/-- Witness for `iteration_ceiling`: the initial state is reachable
from itself and satisfies the bound; the at-ceiling state forces
"FINISH". -/
theorem iteration_ceiling_witness :
    (initState "Assess ACME").iteration_count = 0 ∧
    Reachable (initState "Assess ACME") (initState "Assess ACME") ∧
    10 ≤ atCeilingState.iteration_count ∧
    ((initState "Assess ACME").iteration_count ≤ 10 ∧
      supervisor_node jsonNextNone (Content.str "x") atCeilingState = "FINISH") :=
  ⟨rfl, Relation.ReflTransGen.refl, by decide,
    iteration_ceiling _ _ rfl Relation.ReflTransGen.refl jsonNextNone
      (Content.str "x") atCeilingState (by decide)⟩

/-- C5: below the iteration ceiling, whenever at least one required
pipeline agent is absent from `risk_signals`, the supervisor's decision
is independent of the reasoning-service oracle (no adaptive call is
consulted), is a required agent that has not yet reported, is the
earliest such agent in the fixed pipeline order, and is never "FINISH";
in particular on the initial state (one user message, zero iterations,
empty `risk_signals`) the decision is "geopolitical_analyst". -/
theorem deterministic_pipeline_routing
    (jn jn' : String → Except Unit JsonCandidate) (c c' : Content)
    (s : AgentState) (q : String) (h10 : s.iteration_count < 10)
    (hmiss : ∃ a ∈ REQUIRED_PIPELINE,
      a ∉ s.risk_signals.map RiskSignal.agent) :
    supervisor_node jn c s = supervisor_node jn' c' s ∧
    supervisor_node jn c s ∈ REQUIRED_PIPELINE ∧
    supervisor_node jn c s ∉ s.risk_signals.map RiskSignal.agent ∧
    (∀ b ∈ REQUIRED_PIPELINE, b ∉ s.risk_signals.map RiskSignal.agent →
      REQUIRED_PIPELINE.findIdx (· = supervisor_node jn c s) ≤
        REQUIRED_PIPELINE.findIdx (· = b)) ∧
    supervisor_node jn c s ≠ "FINISH" ∧
    supervisor_node jn c (initState q) = "geopolitical_analyst" := by
  have hcons : REQUIRED_PIPELINE = "geopolitical_analyst" ::
      "credit_evaluator" :: "market_synthesizer" :: [] := rfl
  by_cases hg : "geopolitical_analyst" ∈ s.risk_signals.map RiskSignal.agent
  case neg =>
    have heq : ∀ (jx : String → Except Unit JsonCandidate) (cx : Content),
        supervisor_node jx cx s = "geopolitical_analyst" := by
      intro jx cx
      have hfind : REQUIRED_PIPELINE.find?
          (fun agent => !((s.risk_signals.map RiskSignal.agent).contains agent)) =
          some "geopolitical_analyst" := by
        rw [hcons]
        exact List.find?_cons_of_pos _ (by simpa using hg)
      rw [supervisor_below jx cx s h10, hfind]
    refine ⟨(heq jn c).trans (heq jn' c').symm, ?_, ?_, ?_, ?_, by rfl⟩
    · rw [heq jn c]; decide
    · rw [heq jn c]; exact hg
    · intro b _ _
      rw [heq jn c]
      exact le_of_eq_of_le (by decide) (Nat.zero_le _)
    · rw [heq jn c]; decide
  case pos =>
    by_cases hc : "credit_evaluator" ∈ s.risk_signals.map RiskSignal.agent
    case neg =>
      have heq : ∀ (jx : String → Except Unit JsonCandidate) (cx : Content),
          supervisor_node jx cx s = "credit_evaluator" := by
        intro jx cx
        have hfind : REQUIRED_PIPELINE.find?
            (fun agent => !((s.risk_signals.map RiskSignal.agent).contains agent)) =
            some "credit_evaluator" := by
          rw [hcons, List.find?_cons_of_neg _ (by simpa using hg)]
          exact List.find?_cons_of_pos _ (by simpa using hc)
        rw [supervisor_below jx cx s h10, hfind]
      refine ⟨(heq jn c).trans (heq jn' c').symm, ?_, ?_, ?_, ?_, by rfl⟩
      · rw [heq jn c]; decide
      · rw [heq jn c]; exact hc
      · intro b hb hbmiss
        rw [heq jn c]
        have hb3 : b = "geopolitical_analyst" ∨ b = "credit_evaluator" ∨
            b = "market_synthesizer" := by
          simpa [REQUIRED_PIPELINE] using hb
        rcases hb3 with hb3 | hb3 | hb3
        · exact absurd hg (hb3 ▸ hbmiss)
        · subst hb3; decide
        · subst hb3; decide
      · rw [heq jn c]; decide
    case pos =>
      by_cases hm : "market_synthesizer" ∈ s.risk_signals.map RiskSignal.agent
      case pos =>
        exfalso
        obtain ⟨a, ha, hna⟩ := hmiss
        have ha3 : a = "geopolitical_analyst" ∨ a = "credit_evaluator" ∨
            a = "market_synthesizer" := by
          simpa [REQUIRED_PIPELINE] using ha
        rcases ha3 with ha3 | ha3 | ha3 <;> subst ha3
        · exact hna hg
        · exact hna hc
        · exact hna hm
      case neg =>
        have heq : ∀ (jx : String → Except Unit JsonCandidate) (cx : Content),
            supervisor_node jx cx s = "market_synthesizer" := by
          intro jx cx
          have hfind : REQUIRED_PIPELINE.find?
              (fun agent => !((s.risk_signals.map RiskSignal.agent).contains agent)) =
              some "market_synthesizer" := by
            rw [hcons, List.find?_cons_of_neg _ (by simpa using hg),
              List.find?_cons_of_neg _ (by simpa using hc)]
            exact List.find?_cons_of_pos _ (by simpa using hm)
          rw [supervisor_below jx cx s h10, hfind]
        refine ⟨(heq jn c).trans (heq jn' c').symm, ?_, ?_, ?_, ?_, by rfl⟩
        · rw [heq jn c]; decide
        · rw [heq jn c]; exact hm
        · intro b hb hbmiss
          rw [heq jn c]
          have hb3 : b = "geopolitical_analyst" ∨ b = "credit_evaluator" ∨
              b = "market_synthesizer" := by
            simpa [REQUIRED_PIPELINE] using hb
          rcases hb3 with hb3 | hb3 | hb3
          · exact absurd hg (hb3 ▸ hbmiss)
          · exact absurd hc (hb3 ▸ hbmiss)
          · subst hb3; decide
        · rw [heq jn c]; decide

/-- Witness for `deterministic_pipeline_routing`: the initial state
routes to the first pipeline agent, never "FINISH". -/
theorem deterministic_pipeline_routing_witness :
    (initState "Assess ACME").iteration_count < 10 ∧
    (∃ a ∈ REQUIRED_PIPELINE,
      a ∉ (initState "Assess ACME").risk_signals.map RiskSignal.agent) ∧
    supervisor_node jsonNextNone (Content.str "x") (initState "Assess ACME") =
      "geopolitical_analyst" ∧
    supervisor_node jsonNextNone (Content.str "x") (initState "Assess ACME") ≠
      "FINISH" := by
  have h10 : (initState "Assess ACME").iteration_count < 10 := by decide
  have hmiss : ∃ a ∈ REQUIRED_PIPELINE,
      a ∉ (initState "Assess ACME").risk_signals.map RiskSignal.agent :=
    ⟨"geopolitical_analyst", by decide, by decide⟩
  have h := deterministic_pipeline_routing jsonNextNone jsonNextNone
    (Content.str "x") (Content.str "x") (initState "Assess ACME")
    "Assess ACME" h10 hmiss
  exact ⟨h10, hmiss, h.2.2.2.2.2, h.2.2.2.2.1⟩

/-- C6 (code evaluated at the failing input): when the final response
of the ReAct loop has empty content and the only earlier transcript
entry is a system prompt longer than 50 characters, the backward-scan
fallback returns the system prompt itself — system entries pass the
`hasattr(content) and not tool_calls` filter — instead of skipping it
and returning the sentinel as nodes.py's own comment describes. -/
theorem react_fallback_keeps_system_prompt :
    (run_react_loop llmEmptyText emptyRegistry sysPromptEx [] 6).1 = sysPromptEx ∧
    50 < (pyStrip sysPromptEx).length ∧
    sysPromptEx ≠ "Analysis could not be completed." := by
  refine ⟨by decide, by decide, by decide⟩

/-- C7 counterexample: a first response with zero tool calls whose
visible text is empty does not make the loop's output equal that
visible-text portion — the output is the sentinel instead (with a
short system prompt, so the backward scan finds nothing). -/
theorem react_zero_toolcalls_claim_false :
    (llmEmptyText [Msg.system (Content.str "sys")]).tool_calls = [] ∧
    extract_text (llmEmptyText [Msg.system (Content.str "sys")]).content = "" ∧
    (run_react_loop llmEmptyText emptyRegistry "sys" [] 6).1 =
      "Analysis could not be completed." ∧
    "Analysis could not be completed." ≠ "" := by
  refine ⟨rfl, rfl, by decide, by decide⟩

/-- Iteration count of the loop when every response requests tool
calls: all the fuel is consumed. -/
theorem reactAux_all_tools (llm : List Msg → AIResp) (registry : Registry)
    (hall : ∀ m, (llm m).tool_calls ≠ []) :
    ∀ (fuel : Nat) (msgs : List Msg) (last : Option AIResp) (iters : Nat),
      (reactAux llm registry fuel msgs last iters).2.2 = iters + fuel := by
  intro fuel
  induction fuel with
  | zero => intro msgs last iters; rfl
  | succ n ih =>
    intro msgs last iters
    have hne : ((llm msgs).tool_calls.isEmpty) = false := by
      cases htc : (llm msgs).tool_calls with
      | nil => exact absurd htc (hall msgs)
      | cons a t => rfl
    simp only [reactAux, hne, Bool.false_eq_true, if_false, ih]
    omega

/-- C7 (amended): a first reasoning response with zero tool calls makes
the loop terminate after exactly one iteration, and — when that
response's visible text is non-blank — the output equals that
visible-text portion (when blank, the backward-scan fallback applies
instead); a reasoning service whose every response requests tool calls
makes the loop stop at exactly `max_iterations` iterations. -/
theorem react_loop_iterations (llm : List Msg → AIResp) (registry : Registry)
    (sp : String) (sm : List Msg) (maxIter : Nat) (hpos : 0 < maxIter) :
    ((llm (Msg.system (Content.str sp) :: sm)).tool_calls = [] →
      (run_react_loop llm registry sp sm maxIter).2 = 1 ∧
      (pyStrip (extract_text (llm (Msg.system (Content.str sp) :: sm)).content) ≠ "" →
        (run_react_loop llm registry sp sm maxIter).1 =
          extract_text (llm (Msg.system (Content.str sp) :: sm)).content)) ∧
    ((∀ m, (llm m).tool_calls ≠ []) →
      (run_react_loop llm registry sp sm maxIter).2 = maxIter) := by
  constructor
  · intro htc
    obtain ⟨k, rfl⟩ : ∃ k, maxIter = k + 1 := ⟨maxIter - 1, by omega⟩
    have hstep : reactAux llm registry (k + 1)
        (Msg.system (Content.str sp) :: sm) none 0 =
        (Msg.system (Content.str sp) :: sm ++
            [Msg.ai none (llm (Msg.system (Content.str sp) :: sm)).content
              (llm (Msg.system (Content.str sp) :: sm)).tool_calls],
          some (llm (Msg.system (Content.str sp) :: sm)), 1) := by
      simp only [reactAux, htc, List.isEmpty_nil, if_true]
    constructor
    · simp only [run_react_loop, hstep]
    · intro hnb
      simp only [run_react_loop, hstep]
      rw [if_neg (by simp [hnb]), if_neg (by simpa using hnb)]
  · intro hall
    simp only [run_react_loop, reactAux_all_tools llm registry hall]
    omega

/-- Witness for `react_loop_iterations`: a tool-free plain answer is
returned verbatim after one iteration. -/
theorem react_loop_iterations_witness :
    0 < 6 ∧
    (llmPlain [Msg.system (Content.str "s")]).tool_calls = [] ∧
    (run_react_loop llmPlain emptyRegistry "s" [] 6).2 = 1 ∧
    (run_react_loop llmPlain emptyRegistry "s" [] 6).1 =
      "All clear, overall risk is low." := by
  have h := (react_loop_iterations llmPlain emptyRegistry "s" [] 6 (by decide)).1 rfl
  exact ⟨by decide, rfl, h.1, h.2 (by decide)⟩

/-- C8: tool dispatch is total and loses no call: it produces exactly
one tool result per requested call, in order, carrying that call's
identifier; an unregistered tool name yields the structured
unknown-tool error result; a registered tool whose execution raises
yields the structured failure result; and the reasoning loop continues
through such results rather than terminating early — with every
response requesting tool calls it still runs all `max_iterations`
iterations against this registry. -/
theorem tool_dispatch_total (registry : Registry) (tcs : List ToolCall) :
    (execute_tool_calls registry tcs).length = tcs.length ∧
    (∀ i : Nat, ((execute_tool_calls registry tcs).get? i).bind msgToolId =
      (tcs.get? i).map ToolCall.id) ∧
    (∀ tc ∈ tcs, registry tc.name = none →
      Msg.tool (jsonErrorStr ("Unknown tool: " ++ tc.name)) tc.id ∈
        execute_tool_calls registry tcs) ∧
    (∀ tc ∈ tcs, ∀ fn e, registry tc.name = some fn →
      fn tc.args = Except.error e →
      Msg.tool (jsonErrorStr ("Tool " ++ tc.name ++ " failed: " ++ e)) tc.id ∈
        execute_tool_calls registry tcs) ∧
    (∀ (llm : List Msg → AIResp) (sp : String) (sm : List Msg) (maxIter : Nat),
      (∀ m, (llm m).tool_calls ≠ []) →
      (run_react_loop llm registry sp sm maxIter).2 = maxIter) := by
  refine ⟨by simp [execute_tool_calls], ?_, ?_, ?_, ?_⟩
  · intro i
    unfold execute_tool_calls
    rw [List.get?_map]
    cases h : tcs.get? i with
    | none => rfl
    | some tc =>
      cases hreg : registry tc.name with
      | none => simp [msgToolId, hreg]
      | some fn =>
        cases hfn : fn tc.args with
        | ok r => simp [msgToolId, hreg, hfn]
        | error e => simp [msgToolId, hreg, hfn]
  · intro tc htc hreg
    refine List.mem_map.mpr ⟨tc, htc, ?_⟩
    rw [hreg]
  · intro tc htc fn e hreg hfn
    refine List.mem_map.mpr ⟨tc, htc, ?_⟩
    simp [hreg, hfn]
  · intro llm sp sm maxIter hall
    simp only [run_react_loop, reactAux_all_tools llm registry hall]
    omega

/-- Witness for `tool_dispatch_total`: the unregistered tool "foo"
yields one structured error result carrying the call identifier, and a
loop requesting it forever still runs all 3 iterations. -/
theorem tool_dispatch_total_witness :
    (execute_tool_calls emptyRegistry [⟨"foo", "a", "call_1"⟩]).length = 1 ∧
    emptyRegistry "foo" = none ∧
    Msg.tool (jsonErrorStr "Unknown tool: foo") "call_1" ∈
      execute_tool_calls emptyRegistry [⟨"foo", "a", "call_1"⟩] ∧
    (run_react_loop llmToolLoop emptyRegistry "s" [] 3).2 = 3 := by
  have h := tool_dispatch_total emptyRegistry [⟨"foo", "a", "call_1"⟩]
  refine ⟨h.1, rfl, ?_, ?_⟩
  · exact h.2.2.1 ⟨"foo", "a", "call_1"⟩ (by decide) rfl
  · exact h.2.2.2.2 llmToolLoop "s" [] 3 (fun m => by simp [llmToolLoop])

/-- The found index of `substrIdx` really is an occurrence: the pattern
is a prefix of the suffix starting there. -/
theorem substrIdx_some_pre :
    ∀ (l pat : List Char) (i : Nat), substrIdx l pat = some i →
      listPre pat (l.drop i) = true := by
  intro l
  induction l with
  | nil =>
    intro pat i h
    unfold substrIdx at h
    by_cases hp : listPre pat []
    · rw [if_pos hp] at h
      have h0 : i = 0 := (Option.some.inj h).symm
      subst h0
      simpa using hp
    · rw [if_neg hp] at h
      exact absurd h (by simp)
  | cons a t ih =>
    intro pat i h
    unfold substrIdx at h
    by_cases hp : listPre pat (a :: t)
    · rw [if_pos hp] at h
      have h0 : i = 0 := (Option.some.inj h).symm
      subst h0
      simpa using hp
    · rw [if_neg hp] at h
      cases hrec : substrIdx t pat with
      | none => rw [hrec] at h; exact absurd h (by simp)
      | some j =>
        rw [hrec] at h
        have h1 : j + 1 = i := by simpa using h
        subst h1
        simpa using ih pat j hrec

/-- Below the found index of `substrIdx` there is no occurrence: it is
the first one. -/
theorem substrIdx_some_min :
    ∀ (l pat : List Char) (i : Nat), substrIdx l pat = some i →
      ∀ j, j < i → listPre pat (l.drop j) = false := by
  intro l
  induction l with
  | nil =>
    intro pat i h j hj
    unfold substrIdx at h
    by_cases hp : listPre pat []
    · rw [if_pos hp] at h
      have h0 : i = 0 := (Option.some.inj h).symm
      omega
    · rw [if_neg hp] at h
      exact absurd h (by simp)
  | cons a t ih =>
    intro pat i h j hj
    unfold substrIdx at h
    by_cases hp : listPre pat (a :: t)
    · rw [if_pos hp] at h
      have h0 : i = 0 := (Option.some.inj h).symm
      omega
    · rw [if_neg hp] at h
      cases hrec : substrIdx t pat with
      | none => rw [hrec] at h; exact absurd h (by simp)
      | some k =>
        rw [hrec] at h
        have h1 : k + 1 = i := by simpa using h
        subst h1
        cases j with
        | zero => simpa using hp
        | succ m => simpa using ih pat k hrec m (by omega)

/-- C9: each agent node's update appends exactly one transcript entry
attributed to that agent's name consisting of its label prefix plus its
final text, appends exactly one `risk_signals` record, and writes
`iteration_count` as the incoming count plus one (an increment under
the state merge); the terminal synthesizer additionally writes
`final_report` equal to its final text trimmed to start at the first
occurrence of the report-start delimiter, or kept untrimmed when the
delimiter is absent. -/
theorem agent_node_updates (llm : List Msg → AIResp) (registry : Registry)
    (gp cp mp : String) (s : AgentState) :
    (geopolitical_analyst_node llm registry gp s).messages =
      [Msg.ai (some "geopolitical_analyst")
        (Content.str ("[GEOPOLITICAL ANALYST]

" ++
          (run_react_loop llm registry gp s.messages 6).1)) []] ∧
    (geopolitical_analyst_node llm registry gp s).risk_signals =
      [⟨"geopolitical_analyst", (run_react_loop llm registry gp s.messages 6).1⟩] ∧
    (geopolitical_analyst_node llm registry gp s).final_report = none ∧
    (geopolitical_analyst_node llm registry gp s).iteration_count =
      s.iteration_count + 1 ∧
    (credit_evaluator_node llm registry cp s).messages =
      [Msg.ai (some "credit_evaluator")
        (Content.str ("[CREDIT RISK EVALUATOR]

" ++
          (run_react_loop llm registry cp s.messages 6).1)) []] ∧
    (credit_evaluator_node llm registry cp s).risk_signals =
      [⟨"credit_evaluator", (run_react_loop llm registry cp s.messages 6).1⟩] ∧
    (credit_evaluator_node llm registry cp s).final_report = none ∧
    (credit_evaluator_node llm registry cp s).iteration_count =
      s.iteration_count + 1 ∧
    (market_synthesizer_node llm registry mp s).messages =
      [Msg.ai (some "market_synthesizer")
        (Content.str ("[MARKET SYNTHESIZER]

" ++
          stripPreamble (run_react_loop llm registry mp s.messages 4).1)) []] ∧
    (market_synthesizer_node llm registry mp s).risk_signals =
      [⟨"market_synthesizer",
        stripPreamble (run_react_loop llm registry mp s.messages 4).1⟩] ∧
    (market_synthesizer_node llm registry mp s).final_report =
      some (stripPreamble (run_react_loop llm registry mp s.messages 4).1) ∧
    (market_synthesizer_node llm registry mp s).iteration_count =
      s.iteration_count + 1 ∧
    (∀ x : String,
      (substrIdx x.toList report_marker.toList = none → stripPreamble x = x) ∧
      (∀ i, substrIdx x.toList report_marker.toList = some i →
        stripPreamble x = (x.toList.drop i).asString ∧
        listPre report_marker.toList (x.toList.drop i) = true ∧
        ∀ j, j < i → listPre report_marker.toList (x.toList.drop j) = false)) := by
  refine ⟨rfl, rfl, rfl, rfl, rfl, rfl, rfl, rfl, rfl, rfl, rfl, rfl, ?_⟩
  intro x
  constructor
  · intro h
    unfold stripPreamble
    rw [h]
  · intro i h
    refine ⟨?_, substrIdx_some_pre x.toList report_marker.toList i h,
      substrIdx_some_min x.toList report_marker.toList i h⟩
    unfold stripPreamble
    rw [h]

/-- Witness for `agent_node_updates`: the synthesizer on a marked
response trims the preamble, and the written iteration count is the
incoming zero plus one. -/
theorem agent_node_updates_witness :
    (market_synthesizer_node llmMarker emptyRegistry "p" (initState "q")).final_report =
      some "═══ REPORT ═══\nBody" ∧
    (market_synthesizer_node llmMarker emptyRegistry "p" (initState "q")).iteration_count =
      1 ∧
    substrIdx "Intro\n═══ REPORT ═══\nBody".toList report_marker.toList = some 6 ∧
    stripPreamble "Intro\n═══ REPORT ═══\nBody" =
      ("Intro\n═══ REPORT ═══\nBody".toList.drop 6).asString := by
  have h := agent_node_updates llmMarker emptyRegistry "p" "p" "p" (initState "q")
  have hchar := (h.2.2.2.2.2.2.2.2.2.2.2.2 "Intro\n═══ REPORT ═══\nBody").2 6 (by decide)
  have hfr := h.2.2.2.2.2.2.2.2.2.2.1
  have hit := h.2.2.2.2.2.2.2.2.2.2.2.1
  refine ⟨hfr.trans (by decide), hit.trans rfl, by decide, hchar.1⟩

/-- C10: the content-extraction function is the same in nodes.py and
supervisor.py, returns any plain-string input unchanged, and is
therefore idempotent: extracting from its own (string) output yields
the same result as extracting once. -/
theorem extract_text_idempotent (c : Content) (s : String) :
    extract_text c = extract_textS c ∧
    extract_text (Content.str s) = s ∧
    extract_text (Content.str (extract_text c)) = extract_text c := by
  refine ⟨?_, rfl, rfl⟩
  cases c with
  | str s => rfl
  | other r => rfl
  | list blocks =>
    have h : extractBlock = extractBlockS := by
      funext b
      cases b <;> rfl
    simp [extract_text, extract_textS, h]

end RiskAnalysis
